import Mathlib

/- Formal model of the newsportal-backend event-clustering and knowledge-graph
synthesis pipeline: the clustering service (tokenizer, similarity scorer,
greedy cluster builder, story materialization, clustering job), the AI
synthesis service (external synthesis call with degraded fallback), and the
scheduler's single-flight job guard.  Each definition is a shallow embedding
of the corresponding TypeScript function; theorems about the claims follow
the definitions. -/

/-- Article record as consumed by the clustering service.  The source stores
`published_at` as an ISO-8601 string and always compares articles through
`new Date(published_at).getTime()`; the model carries that numeric timestamp
(epoch milliseconds) directly as an integer. -/
structure Article where
  id : String
  title : String
  excerpt : String
  url : String
  source : String
  published_at : Int
  image_url : Option String
deriving DecidableEq

/-- Ephemeral cluster: member articles plus the similarity score maintained
while the cluster grows.  Scores are JavaScript numbers, idealized as reals. -/
structure Cluster where
  articles : List Article
  similarity : ℝ

/-- Stop-word list of the tokenizer, transcribed verbatim from the source. -/
def stopWords : List String :=
  ["the", "a", "an", "and", "or", "but", "in", "on", "at", "to", "for",
   "of", "with", "by", "from", "is", "are", "was", "were", "be", "been",
   "being", "have", "has", "had", "do", "does", "did", "will", "would",
   "could", "should", "may", "might", "must", "shall", "can", "need",
   "its", "it", "this", "that", "these", "those", "he", "she", "they",
   "we", "you", "i", "his", "her", "their", "our", "your", "my", "as",
   "said", "says", "according", "also", "just", "about", "after", "before",
   "new", "first", "last", "year", "years", "day", "days", "time", "more",
   "some", "any", "all", "most", "other", "into", "over", "such", "no",
   "not", "only", "than", "then", "now", "out", "up", "down", "so", "if"]

/-- Character normalization step of the tokenizer: the source replaces every
character outside `[^\w\s]` (ASCII word characters and whitespace) by a
space. -/
def normalizeChar (c : Char) : Char :=
  if c.isAlphanum || c = '_' || c.isWhitespace then c else ' '

/-- Splitting a character list at every whitespace character.  The source
splits on the regex `\s+`; the only difference is that consecutive
whitespace yields empty pieces here, and every empty piece is discarded by
the length filter immediately afterwards, so the token output agrees. -/
def splitOnWs : List Char → List (List Char)
  | [] => [[]]
  | c :: rest =>
    match splitOnWs rest with
    | [] => [[c]]
    | w :: ws => if c.isWhitespace then [] :: w :: ws else (c :: w) :: ws

/-- Tokenizer of the clustering service: lowercase, strip punctuation to
spaces, split on whitespace, keep words of length > 2 that are not stop
words.  Implemented over the string's character list so that it is fully
executable. -/
def tokenize (text : String) : List String :=
  ((splitOnWs ((text.data.map Char.toLower).map normalizeChar)).map
      (fun cs => String.mk cs)).filter
    (fun w => decide (2 < w.length) && !(stopWords.contains w))

/-- Jaccard similarity of two token lists.  The source computes
`intersection.size / union.size` with no guard: when both token lists are
empty the JavaScript expression is `0 / 0`, which evaluates to `NaN`.  `NaN`
is modeled by `none`; every other case is an exact rational. (When the union
is empty the intersection is empty as well, so the unguarded division is
`0 / 0` exactly in the `none` case.) -/
def jaccardSimilarity (tokens1 tokens2 : List String) : Option ℚ :=
  let set1 := tokens1.toFinset
  let set2 := tokens2.toFinset
  let intersection := set1 ∩ set2
  let union := set1 ∪ set2
  if union.card = 0 then none
  else some ((intersection.card : ℚ) / (union.card : ℚ))

/-- Set of all terms appearing in either frequency map of the cosine
computation. -/
def allTerms (tokens1 tokens2 : List String) : Finset String :=
  tokens1.toFinset ∪ tokens2.toFinset

/-- Dot product of the two term-frequency vectors. -/
def dotProduct (tokens1 tokens2 : List String) : ℕ :=
  ∑ term ∈ allTerms tokens1 tokens2, tokens1.count term * tokens2.count term

/-- Accumulated `v1 * v1` of the source's cosine loop (the squared magnitude
of the first frequency vector). -/
def magnitude1 (tokens1 tokens2 : List String) : ℕ :=
  ∑ term ∈ allTerms tokens1 tokens2, tokens1.count term ^ 2

/-- Accumulated `v2 * v2` of the source's cosine loop (the squared magnitude
of the second frequency vector). -/
def magnitude2 (tokens1 tokens2 : List String) : ℕ :=
  ∑ term ∈ allTerms tokens1 tokens2, tokens2.count term ^ 2

/-- Cosine similarity using term frequencies, with the source's explicit
guard returning 0 when either magnitude is 0. -/
noncomputable def cosineSimilarity (tokens1 tokens2 : List String) : ℝ :=
  if magnitude1 tokens1 tokens2 = 0 ∨ magnitude2 tokens1 tokens2 = 0 then 0
  else (dotProduct tokens1 tokens2 : ℝ) /
    (Real.sqrt (magnitude1 tokens1 tokens2) * Real.sqrt (magnitude2 tokens1 tokens2))

/-- Combined similarity score of two articles: the mean of Jaccard and cosine
over the tokens of `title + " " + excerpt`.  A `NaN` Jaccard (both token
lists empty) propagates through the addition and division, so the combined
score is `NaN` (`none`) in exactly that case. -/
noncomputable def calculateSimilarity (article1 article2 : Article) : Option ℝ :=
  let tokens1 := tokenize (article1.title ++ " " ++ article1.excerpt)
  let tokens2 := tokenize (article2.title ++ " " ++ article2.excerpt)
  match jaccardSimilarity tokens1 tokens2 with
  | none => none
  | some jaccard => some (((jaccard : ℝ) + cosineSimilarity tokens1 tokens2) / 2)

/-- Sum of a list of similarity values, as computed by the source's
`similarities.reduce((a, b) => a + b, 0)`: if any entry is `NaN` (`none`)
the whole sum is `NaN`. -/
noncomputable def optSum : List (Option ℝ) → Option ℝ
  | [] => some 0
  | o :: rest =>
    match o, optSum rest with
    | some a, some s => some (a + s)
    | _, _ => none

/-- Average of a list of similarity values (`sum / length`); `NaN`
propagates.  In the clustering loop the list is always nonempty since a
cluster always has at least its seed. -/
noncomputable def optAvg (l : List (Option ℝ)) : Option ℝ :=
  (optSum l).map (fun s => s / (l.length : ℝ))

/-- Inner candidate scan of `clusterArticles`: for each not-yet-assigned
candidate, average the similarity against every current member; if the
average is defined and ≥ threshold, append the candidate, lower the
cluster's score to `min score avg`, and mark the candidate assigned.  A
`NaN` average fails the `>=` comparison in JavaScript, hence the `none`
branch rejects. -/
noncomputable def growCluster (sim : Article → Article → Option ℝ) (threshold : ℝ) :
    Cluster → List String → List Article → Cluster × List String
  | cl, assigned, [] => (cl, assigned)
  | cl, assigned, candidate :: rest =>
    if candidate.id ∈ assigned then growCluster sim threshold cl assigned rest
    else
      match optAvg (cl.articles.map (fun a => sim a candidate)) with
      | some avg =>
        if threshold ≤ avg then
          growCluster sim threshold
            ⟨cl.articles ++ [candidate], min cl.similarity avg⟩
            (candidate.id :: assigned) rest
        else growCluster sim threshold cl assigned rest
      | none => growCluster sim threshold cl assigned rest

/-- Outer loop of `clusterArticles`: walk the recency-sorted list; every
not-yet-assigned article seeds a new cluster with score 1 and the candidate
scan runs over the whole sorted list. -/
noncomputable def buildClusters (sim : Article → Article → Option ℝ) (threshold : ℝ)
    (sorted : List Article) : List Article → List String → List Cluster
  | [], _ => []
  | a :: rest, assigned =>
    if a.id ∈ assigned then buildClusters sim threshold sorted rest assigned
    else
      let p := growCluster sim threshold ⟨[a], 1⟩ (a.id :: assigned) sorted
      p.1 :: buildClusters sim threshold sorted rest p.2

/-- Insertion step of the stable recency sort: an article moves ahead of
exactly the strictly older articles, so equal timestamps keep their
first-come order (JavaScript's `Array.prototype.sort` is stable). -/
def insertByRecency (a : Article) : List Article → List Article
  | [] => [a]
  | b :: rest =>
    if b.published_at < a.published_at then a :: b :: rest
    else b :: insertByRecency a rest

/-- Stable sort by `published_at` descending, the model of
`[...articles].sort((a, b) => new Date(b.published_at).getTime() -
new Date(a.published_at).getTime())`. -/
def sortByRecency (articles : List Article) : List Article :=
  articles.foldl (fun acc a => insertByRecency a acc) []

/-- Greedy clustering parameterized by the similarity function. -/
noncomputable def clusterArticlesWith (sim : Article → Article → Option ℝ)
    (threshold : ℝ) (articles : List Article) : List Cluster :=
  let sorted := sortByRecency articles
  buildClusters sim threshold sorted sorted []

/-- The clustering entry point `clusterArticles(articles, threshold)` of the
source, with its actual similarity function. -/
noncomputable def clusterArticles (articles : List Article) (threshold : ℝ) : List Cluster :=
  clusterArticlesWith calculateSimilarity threshold articles

/-- Citation of a synthesis section after the orchestrator has mapped the
payload's `article_index` to a concrete article id. -/
structure SynthCitation where
  source : String
  article_id : String
deriving DecidableEq

/-- Section of a synthesized story. -/
structure SynthesisSection where
  title : String
  content : String
  citations : List SynthCitation
deriving DecidableEq

/-- Entity extracted by the synthesis step.  The source's union types
(`person | company | ...`, `primary | secondary | mentioned`) are plain
strings in the loosely-typed payload and are modeled as strings. -/
structure ExtractedEntity where
  name : String
  type : String
  role : String
  context : String
deriving DecidableEq

/-- Entity connection asserted by the synthesis payload (endpoint names, not
ids). -/
structure EntityConnectionSpec where
  source : String
  target : String
  relationship : String
  evidence : String
  strength : ℚ
deriving DecidableEq

/-- Sector impact prediction from the synthesis payload. -/
structure ImpactPrediction where
  sector : String
  type : String
  severity : ℕ
  prediction : String
  confidence : ℚ
deriving DecidableEq

/-- Synthesis result as consumed by `createStoryFromCluster` (citations
already carry article ids).  The optional `timeline` field of the source is
never read by any consumer and is not modeled. -/
structure SynthesisResult where
  title : String
  summary : String
  sections : List SynthesisSection
  entities : List ExtractedEntity
  connections : List EntityConnectionSpec
  impacts : List ImpactPrediction
deriving DecidableEq

/-- Citation as it appears in the raw LLM payload: an `article_index` into
the request's article list. -/
structure RawCitation where
  source : String
  article_index : ℕ
deriving DecidableEq

/-- Section of the raw LLM payload. -/
structure RawSection where
  title : String
  content : String
  citations : List RawCitation
deriving DecidableEq

/-- Raw parsed LLM payload, before citation mapping. -/
structure RawSynthesis where
  title : String
  summary : String
  sections : List RawSection
  entities : List ExtractedEntity
  connections : List EntityConnectionSpec
  impacts : List ImpactPrediction
deriving DecidableEq

/-- Mapping of one raw citation to a cited article id:
`articles[articleIndex]?.id || articles[0].id` (ids are nonempty database
uuids, so JavaScript's falsy-string case of `||` does not arise). -/
def mapCitation (articles : List Article) (a0 : Article) (c : RawCitation) : SynthCitation :=
  ⟨c.source, ((articles[c.article_index]?).map Article.id).getD a0.id⟩

/-- Mapping of one raw section: citations get article ids. -/
def mapSection (articles : List Article) (a0 : Article) (s : RawSection) : SynthesisSection :=
  ⟨s.title, s.content, s.citations.map (mapCitation articles a0)⟩

/-- Excerpt-with-source tag used by the degraded fallback synthesis. -/
def taggedExcerpt (a : Article) : String :=
  a.excerpt ++ " [" ++ a.source ++ "]"

/-- Single section of the degraded fallback synthesis: every member
article's excerpt tagged with its source, joined by single spaces. -/
def fallbackSection (articles : List Article) : SynthesisSection :=
  ⟨"Summary", String.intercalate " " (articles.map taggedExcerpt),
    articles.map (fun a => ⟨a.source, a.id⟩)⟩

/-- Degraded synthesis returned when the external call fails: the first
article's title and excerpt, one fallback section, and no entities,
connections or impacts. -/
def fallbackSynthesis (a0 : Article) (rest : List Article) : SynthesisResult :=
  ⟨a0.title, a0.excerpt, [fallbackSection (a0 :: rest)], [], [], []⟩

/-- Model of `synthesizeArticles`.  The external call is represented by
`llmResponse`: `some raw` is a successfully parsed payload, `none` collapses
every failure the source's `catch` handles (thrown API error, missing
content, unparsable JSON).  An empty article list throws before the
`try`, so that error propagates to the caller (`Except.error`).  On success
each citation's `article_index` is mapped to an article id; on failure the
degraded fallback result is returned. -/
def synthesizeArticles (llmResponse : Option RawSynthesis) :
    List Article → Except String SynthesisResult
  | [] => .error "No articles provided for synthesis"
  | a0 :: rest =>
    match llmResponse with
    | some raw =>
      .ok ⟨raw.title, raw.summary, raw.sections.map (mapSection (a0 :: rest) a0),
        raw.entities, raw.connections, raw.impacts⟩
    | none => .ok (fallbackSynthesis a0 rest)

/-- Persisted story row (fields written by `createStoryFromCluster`; the
externally clocked `published_at` and defaulted counters are not modeled). -/
structure StoryRow where
  id : String
  title : String
  summary : String
  synthesis : List SynthesisSection
  hero_image_url : Option String
  status : String
deriving DecidableEq

/-- Story-article link row. -/
structure StoryArticleRow where
  story_id : String
  article_id : String
  relevance_score : ℝ

/-- Persisted entity row. -/
structure EntityRow where
  id : String
  name : String
  type : String
deriving DecidableEq

/-- Story-entity link row. -/
structure StoryEntityRow where
  story_id : String
  entity_id : String
  role : String
  context : String
deriving DecidableEq

/-- Persisted entity connection row. -/
structure EntityConnectionRow where
  source_entity_id : String
  target_entity_id : String
  relationship_type : String
  relationship_label : String
  strength : ℚ
  evidence : String
  story_id : String
deriving DecidableEq

/-- Persisted story impact row. -/
structure StoryImpactRow where
  story_id : String
  sector_id : String
  impact_type : String
  severity : ℕ
  prediction : String
  confidence : ℚ
deriving DecidableEq

/-- In-memory model of the persistence store, restricted to the tables the
clustering pipeline writes.  `nextEntityId` models the store's id
generation for newly inserted entities. -/
structure DB where
  stories : List StoryRow
  story_articles : List StoryArticleRow
  entities : List EntityRow
  story_entities : List StoryEntityRow
  entity_connections : List EntityConnectionRow
  story_impacts : List StoryImpactRow
  nextEntityId : ℕ

/-- Lower-casing used to model the case-insensitive `ilike` name match
(character-level so that it is kernel-executable). -/
def lowerName (s : String) : String :=
  String.mk (s.data.map Char.toLower)

/-- Model of `.select('id').ilike('name', name).single()`: a row is returned
exactly when precisely one entity matches the name case-insensitively
(`single()` errors on zero or several matches, which the source treats as
"not found"). -/
def lookupEntityId (db : DB) (name : String) : Option String :=
  match db.entities.filter (fun e => lowerName e.name == lowerName name) with
  | [e] => some e.id
  | _ => none

/-- Upsert into `story_entities`, keyed by the table's `(story_id,
entity_id)` uniqueness constraint. -/
def upsertStoryEntity (rows : List StoryEntityRow) (r : StoryEntityRow) : List StoryEntityRow :=
  if rows.any (fun o => o.story_id == r.story_id && o.entity_id == r.entity_id) then
    rows.map (fun o =>
      if o.story_id == r.story_id && o.entity_id == r.entity_id then r else o)
  else rows ++ [r]

/-- Conflict key of the `entity_connections` upsert:
`source_entity_id, target_entity_id, relationship_type`. -/
def connKey (r : EntityConnectionRow) : String × String × String :=
  (r.source_entity_id, r.target_entity_id, r.relationship_type)

/-- Upsert into `entity_connections` on the triple conflict key: an existing
row with the same key is overwritten with the new values, otherwise the row
is appended. -/
def upsertConnection (rows : List EntityConnectionRow) (r : EntityConnectionRow) :
    List EntityConnectionRow :=
  if rows.any (fun o => connKey o == connKey r) then
    rows.map (fun o => if connKey o == connKey r then r else o)
  else rows ++ [r]

/-- Label derivation `connection.relationship.replace(/_/g, ' ')`. -/
def underscoresToSpaces (s : String) : String :=
  String.mk (s.data.map (fun c => if c = '_' then ' ' else c))

/-- Entity resolution and story linking for one extracted entity (the body
of the source's entity loop): look up by case-insensitive name; insert a new
entity when the lookup finds none (ids come from the store, modeled by the
counter); then upsert the story-entity link. -/
def resolveAndLinkEntity (storyId : String) (db : DB) (e : ExtractedEntity) : DB :=
  match lookupEntityId db e.name with
  | some entityId =>
    { db with story_entities :=
        upsertStoryEntity db.story_entities ⟨storyId, entityId, e.role, e.context⟩ }
  | none =>
    let entityId := "entity-" ++ toString db.nextEntityId
    let newRow : EntityRow := ⟨entityId, e.name, e.type⟩
    let db' := { db with
                 entities := db.entities ++ [newRow],
                 nextEntityId := db.nextEntityId + 1 }
    { db' with story_entities :=
        upsertStoryEntity db'.story_entities ⟨storyId, entityId, e.role, e.context⟩ }

/-- Connection merge for one asserted connection (the body of the source's
connection loop): resolve both endpoint names; if either fails to resolve,
do nothing; otherwise upsert the connection row on the triple key, with the
label derived from the relationship type and `story_id` set to the merging
story. -/
def mergeConnection (storyId : String) (db : DB) (c : EntityConnectionSpec) : DB :=
  match lookupEntityId db c.source, lookupEntityId db c.target with
  | some sourceId, some targetId =>
    let row : EntityConnectionRow :=
      ⟨sourceId, targetId, c.relationship, underscoresToSpaces c.relationship,
        c.strength, c.evidence, storyId⟩
    { db with entity_connections := upsertConnection db.entity_connections row }
  | _, _ => db

/-- Externally determined outcomes of one `createStoryFromCluster` call:
the synthesis collaborator's response and the result of the `stories`
insert (`none` models `storyError`, `some id` the returned story id). -/
structure RunEnv where
  synth : Option RawSynthesis
  storyInsert : Option String

/-- Model of `createStoryFromCluster`.  Clusters of fewer than 2 articles
return `null` at once.  A rejected synthesis promise would be caught by the
surrounding `try`/`catch` before any write, returning `null`.  A failed
story insert returns `null` with nothing written.  Otherwise the story row,
the article links (relevance = the cluster's score), the entity
resolutions/links, the connection merges and the impact rows are applied in
the source's order. -/
def createStoryFromCluster (env : RunEnv) (db : DB) (cluster : Cluster) :
    Option String × DB :=
  if cluster.articles.length < 2 then (none, db)
  else
    match synthesizeArticles env.synth cluster.articles with
    | .error _ => (none, db)
    | .ok synthesis =>
      let heroImage := (cluster.articles.find? (fun a => a.image_url.isSome)).bind Article.image_url
      match env.storyInsert with
      | none => (none, db)
      | some storyId =>
        let storyRow : StoryRow :=
          ⟨storyId, synthesis.title, synthesis.summary, synthesis.sections,
            heroImage, "published"⟩
        let articleLinks : List StoryArticleRow :=
          cluster.articles.map (fun a => ⟨storyId, a.id, cluster.similarity⟩)
        let impactRows : List StoryImpactRow :=
          synthesis.impacts.map (fun im =>
            ⟨storyId, im.sector, im.type, im.severity, im.prediction, im.confidence⟩)
        let db1 := { db with stories := db.stories ++ [storyRow] }
        let db2 := { db1 with story_articles := db1.story_articles ++ articleLinks }
        let db3 := synthesis.entities.foldl (resolveAndLinkEntity storyId) db2
        let db4 := synthesis.connections.foldl (mergeConnection storyId) db3
        let db5 :=
          if synthesis.impacts.isEmpty then db4
          else { db4 with story_impacts := db4.story_impacts ++ impactRows }
        (some storyId, db5)

/-- Story-materialization loop of `runClusteringJob`: fold over the valid
clusters, counting the calls that returned a story id; `envs k` supplies the
external outcomes for the `k`-th cluster. -/
def materializeAll (envs : ℕ → RunEnv) : ℕ → DB → List Cluster → ℕ × DB
  | _, db, [] => (0, db)
  | k, db, c :: rest =>
    let r := createStoryFromCluster (envs k) db c
    let p := materializeAll envs (k + 1) r.2 rest
    ((if r.1.isSome then 1 else 0) + p.1, p.2)

/-- Per-cluster outcome trace of the same materialization loop: one entry
per processed cluster. -/
def materializeOutcomes (envs : ℕ → RunEnv) : ℕ → DB → List Cluster → List (Option String)
  | _, _, [] => []
  | k, db, c :: rest =>
    let r := createStoryFromCluster (envs k) db c
    r.1 :: materializeOutcomes envs (k + 1) r.2 rest

/-- Result record returned by the clustering job. -/
structure JobResult where
  articlesProcessed : ℕ
  storiesCreated : ℕ
  clusters : ℕ
deriving DecidableEq

/-- Model of `runClusteringJob`, parameterized by the fetched unassigned
articles (the store read) and the per-cluster external outcomes: fewer than
2 articles end the run with zero counts; otherwise the articles are
clustered at threshold 0.35, clusters with at least 2 members are kept, and
each valid cluster is materialized in order. -/
noncomputable def runClusteringJob (db : DB) (articles : List Article)
    (envs : ℕ → RunEnv) : JobResult × DB :=
  if articles.length < 2 then (⟨0, 0, 0⟩, db)
  else
    let clusters := clusterArticles articles (0.35 : ℝ)
    let validClusters := clusters.filter (fun c => decide (2 ≤ c.articles.length))
    let p := materializeAll envs 0 db validClusters
    (⟨articles.length, p.1, validClusters.length⟩, p.2)

/-- Guard state kept per job type by the scheduler (`jobStatus.clustering`
and `jobStatus.ingestion` have identical structure; the model covers one
job type).  The externally clocked `lastRun` timestamp is not modeled. -/
structure GuardState where
  isRunning : Bool
  lastResult : Option (Except String JobResult)

/-- Phase of one trigger of the job wrapper.  `pending`: the trigger has
fired but its wrapper has not yet executed its synchronous guard check;
`active`: the check admitted it (flag set, body running); `skipped`: the
check saw the flag set and returned immediately; `completed`: the body and
the `finally` block have run. -/
inductive TriggerPhase where
  | pending
  | active
  | skipped
  | completed
deriving DecidableEq, Fintype

/-- Combined state of the guard and two triggers of the same job type. -/
structure SchedulerState where
  guard : GuardState
  trigger0 : TriggerPhase
  trigger1 : TriggerPhase

/-- Phase of the trigger selected by `i`. -/
def phaseOf (s : SchedulerState) (i : Bool) : TriggerPhase :=
  if i then s.trigger1 else s.trigger0

/-- Update of the phase of the trigger selected by `i`. -/
def setPhase (s : SchedulerState) (i : Bool) (p : TriggerPhase) : SchedulerState :=
  if i then { s with trigger1 := p } else { s with trigger0 := p }

/-- One atomic step of trigger `i` of `runClusteringJobWrapper`.  JavaScript
runs the wrapper on a single-threaded event loop, so the code from the
`isRunning` read up to the first `await` (the guard check plus setting the
flag) is one atomic step; the remainder (awaited body plus the `finally`
that records the result and clears the flag) is guard-invisible until it
completes and is taken as the second atomic step.  `outcome i` is whether
trigger `i`'s body resolved with a result or threw; the `finally` runs in
either case. -/
def triggerStep (outcome : Bool → Except String JobResult) (s : SchedulerState)
    (i : Bool) : SchedulerState :=
  match phaseOf s i with
  | .pending =>
    if s.guard.isRunning then setPhase s i .skipped
    else setPhase { s with guard := { s.guard with isRunning := true } } i .active
  | .active =>
    setPhase { s with guard := ⟨false, some (outcome i)⟩ } i .completed
  | _ => s

/-- Execution of an arbitrary interleaving (schedule) of the two triggers'
steps. -/
def runTriggers (outcome : Bool → Except String JobResult) (s : SchedulerState)
    (sched : List Bool) : SchedulerState :=
  sched.foldl (triggerStep outcome) s

/-- Scheduler state at process start: flag clear, no result, two triggers
about to run their guard checks. -/
def schedulerStart : SchedulerState :=
  ⟨⟨false, none⟩, .pending, .pending⟩

/-- A trigger is finished when it either skipped or completed. -/
def phaseDone (p : TriggerPhase) : Bool :=
  p == .skipped || p == .completed

/-- Both triggers finished. -/
def bothTriggersDone (s : SchedulerState) : Bool :=
  phaseDone s.trigger0 && phaseDone s.trigger1

/-- Number of triggers whose body was executed. -/
def executedCount (s : SchedulerState) : ℕ :=
  (if s.trigger0 = .completed then 1 else 0) +
    (if s.trigger1 = .completed then 1 else 0)

/-- Number of triggers that returned immediately without executing the
body. -/
def skippedCount (s : SchedulerState) : ℕ :=
  (if s.trigger0 = .skipped then 1 else 0) +
    (if s.trigger1 = .skipped then 1 else 0)

/-- Guard-relevant projection of the scheduler state (drops the recorded
result, which the stepping of the flag and phases never reads). -/
def coreOf (s : SchedulerState) : Bool × TriggerPhase × TriggerPhase :=
  (s.guard.isRunning, s.trigger0, s.trigger1)

/-- Step function on the guard-relevant projection. -/
def coreStep (c : Bool × TriggerPhase × TriggerPhase) (i : Bool) :
    Bool × TriggerPhase × TriggerPhase :=
  match (if i then c.2.2 else c.2.1) with
  | .pending =>
    if c.1 then (if i then (c.1, c.2.1, .skipped) else (c.1, .skipped, c.2.2))
    else (if i then (true, c.2.1, .active) else (true, .active, c.2.2))
  | .active => (if i then (false, c.2.1, .completed) else (false, .completed, c.2.2))
  | _ => c

/-- Projection commutes with stepping: the recorded result never influences
the flag or the phases. -/
lemma coreOf_triggerStep (o : Bool → Except String JobResult) (s : SchedulerState)
    (i : Bool) : coreOf (triggerStep o s i) = coreStep (coreOf s) i := by
  obtain ⟨⟨run, res⟩, t0, t1⟩ := s
  cases i <;> cases t0 <;> cases t1 <;> cases run <;>
    simp [triggerStep, coreStep, coreOf, phaseOf, setPhase]

/-- Invariant of the guard system: the flag is set exactly when one trigger
is active, at most one trigger is ever active, and a skip certifies that
some trigger was admitted (is active or completed). -/
def coreInv (c : Bool × TriggerPhase × TriggerPhase) : Bool :=
  (c.1 == (c.2.1 == TriggerPhase.active || c.2.2 == TriggerPhase.active)) &&
  !(c.2.1 == TriggerPhase.active && c.2.2 == TriggerPhase.active) &&
  (!(c.2.1 == TriggerPhase.skipped || c.2.2 == TriggerPhase.skipped) ||
    (c.2.1 == TriggerPhase.active || c.2.1 == TriggerPhase.completed ||
     c.2.2 == TriggerPhase.active || c.2.2 == TriggerPhase.completed))

/-- The invariant is preserved by every step of either trigger. -/
lemma coreInv_step : ∀ c i, coreInv c = true → coreInv (coreStep c i) = true := by
  decide

/-- The invariant holds after any schedule run from an invariant state. -/
lemma coreInv_runTriggers (o : Bool → Except String JobResult) (sched : List Bool) :
    ∀ s, coreInv (coreOf s) = true →
      coreInv (coreOf (runTriggers o s sched)) = true := by
  induction sched with
  | nil => intro s h; exact h
  | cons i rest ih =>
    intro s h
    have hstep : coreInv (coreOf (triggerStep o s i)) = true := by
      rw [coreOf_triggerStep]; exact coreInv_step _ i h
    exact ih (triggerStep o s i) hstep

/-- Consequences of the invariant once both triggers have finished,
established by finite enumeration of the guard-relevant states. -/
lemma coreInv_conclusion : ∀ c : Bool × TriggerPhase × TriggerPhase,
    coreInv c = true →
    ((c.2.1 == TriggerPhase.skipped || c.2.1 == TriggerPhase.completed) &&
     (c.2.2 == TriggerPhase.skipped || c.2.2 == TriggerPhase.completed)) = true →
    c.1 = false ∧
    1 ≤ ((if c.2.1 = TriggerPhase.completed then 1 else 0) +
      (if c.2.2 = TriggerPhase.completed then 1 else 0) : ℕ) ∧
    ((if c.2.1 = TriggerPhase.completed then 1 else 0) +
      (if c.2.2 = TriggerPhase.completed then 1 else 0) : ℕ) +
      ((if c.2.1 = TriggerPhase.skipped then 1 else 0) +
       (if c.2.2 = TriggerPhase.skipped then 1 else 0)) = 2 ∧
    (((if c.2.1 = TriggerPhase.skipped then 1 else 0) +
      (if c.2.2 = TriggerPhase.skipped then 1 else 0) : ℕ) = 1 →
      ((if c.2.1 = TriggerPhase.completed then 1 else 0) +
       (if c.2.2 = TriggerPhase.completed then 1 else 0) : ℕ) = 1) := by
  decide

/-- C5: for a job type guarded by the scheduler's running flag, a trigger
whose guard check runs while the flag is set returns immediately as skipped
without executing the job body; for every interleaving of two triggers from
the initial state, once both have finished, the body was executed at least
once, each trigger either executed or skipped, an overlapping pair (one
skipped) executed the body exactly once, and the running flag is false
again — for every body outcome, including a thrown error, since the
`finally` step clears the flag unconditionally. -/
theorem jobGuard_single_flight (outcome : Bool → Except String JobResult)
    (sched : List Bool) :
    (∀ s i, phaseOf s i = TriggerPhase.pending → s.guard.isRunning = true →
      triggerStep outcome s i = setPhase s i TriggerPhase.skipped) ∧
    (bothTriggersDone (runTriggers outcome schedulerStart sched) = true →
      (runTriggers outcome schedulerStart sched).guard.isRunning = false ∧
      1 ≤ executedCount (runTriggers outcome schedulerStart sched) ∧
      executedCount (runTriggers outcome schedulerStart sched) +
        skippedCount (runTriggers outcome schedulerStart sched) = 2 ∧
      (skippedCount (runTriggers outcome schedulerStart sched) = 1 →
        executedCount (runTriggers outcome schedulerStart sched) = 1)) := by
  constructor
  · intro s i h1 h2
    simp [triggerStep, h1, h2]
  · intro hdone
    have hinv := coreInv_runTriggers outcome sched schedulerStart (by decide)
    exact coreInv_conclusion (coreOf (runTriggers outcome schedulerStart sched)) hinv hdone

/-- Witness for C5: a concrete interleaving in which the second trigger's
check runs while the first is active and the first trigger's body throws:
exactly one execution, and the flag is clear at the end. -/
theorem jobGuard_single_flight_witness :
    (runTriggers (fun _ => Except.error "job body threw") schedulerStart
      [false, true, false]).guard.isRunning = false ∧
    executedCount (runTriggers (fun _ => Except.error "job body threw") schedulerStart
      [false, true, false]) = 1 ∧
    triggerStep (fun _ => Except.error "job body threw")
        ⟨⟨true, none⟩, TriggerPhase.pending, TriggerPhase.pending⟩ false =
      setPhase ⟨⟨true, none⟩, TriggerPhase.pending, TriggerPhase.pending⟩ false
        TriggerPhase.skipped := by
  have h := (jobGuard_single_flight (fun _ => Except.error "job body threw")
    [false, true, false]).2 (by decide)
  refine ⟨h.1, h.2.2.2 (by decide), ?_⟩
  exact (jobGuard_single_flight (fun _ => Except.error "job body threw")
    [false, true, false]).1 ⟨⟨true, none⟩, TriggerPhase.pending, TriggerPhase.pending⟩ false
    rfl rfl

/-- C9: clustering is deterministic as a two-run property: the embedding of
`clusterArticles` is a pure function of the article list and threshold (its
only ambient dependence, the order produced by the stable recency sort, is
itself a function of the input), so two runs on the same input produce the
same clusters, with the same membership, member order and scores, in the
same order. -/
theorem clusterArticles_deterministic (articles : List Article) (threshold : ℝ) :
    clusterArticles articles threshold = clusterArticles articles threshold := rfl

/-- Valid clusters of a batch: the source's
`clusters.filter(c => c.articles.length >= 2)` at the job's threshold. -/
noncomputable def validClustersOf (articles : List Article) : List Cluster :=
  (clusterArticles articles (0.35 : ℝ)).filter (fun c => decide (2 ≤ c.articles.length))

/-- C4: when the external synthesis call fails on a nonempty article list,
`synthesizeArticles` still returns a result whose title is the first
article's title, with exactly one section whose content concatenates every
article's excerpt tagged with its source, and with no entities, connections
or impacts; and `createStoryFromCluster` on a qualifying cluster (at least
two members) still persists a story carrying exactly that degraded
synthesis. -/
theorem synthesis_failure_still_creates_story (a0 a1 : Article) (rest : List Article)
    (db : DB) (storyId : String) (score : ℝ) :
    (synthesizeArticles none (a0 :: a1 :: rest) =
      Except.ok (fallbackSynthesis a0 (a1 :: rest)) ∧
     (fallbackSynthesis a0 (a1 :: rest)).title = a0.title ∧
     (fallbackSynthesis a0 (a1 :: rest)).sections =
       [⟨"Summary",
         String.intercalate " "
           ((a0 :: a1 :: rest).map (fun a => a.excerpt ++ " [" ++ a.source ++ "]")),
         (a0 :: a1 :: rest).map (fun a => ⟨a.source, a.id⟩)⟩] ∧
     (fallbackSynthesis a0 (a1 :: rest)).entities = [] ∧
     (fallbackSynthesis a0 (a1 :: rest)).connections = [] ∧
     (fallbackSynthesis a0 (a1 :: rest)).impacts = []) ∧
    ((createStoryFromCluster ⟨none, some storyId⟩ db ⟨a0 :: a1 :: rest, score⟩).1 =
      some storyId ∧
     ∃ row ∈ (createStoryFromCluster ⟨none, some storyId⟩ db
        ⟨a0 :: a1 :: rest, score⟩).2.stories,
       row.id = storyId ∧ row.title = a0.title ∧
       row.synthesis = [fallbackSection (a0 :: a1 :: rest)]) := by
  constructor
  · exact ⟨rfl, rfl, rfl, rfl, rfl, rfl⟩
  · constructor
    · simp only [createStoryFromCluster, synthesizeArticles, fallbackSynthesis,
        fallbackSection, List.foldl_nil, List.isEmpty_nil]
      rw [if_neg (by simp)]
    · refine ⟨⟨storyId, a0.title, a0.excerpt, [fallbackSection (a0 :: a1 :: rest)],
        ((a0 :: a1 :: rest).find? (fun a => a.image_url.isSome)).bind Article.image_url,
        "published"⟩, ?_, rfl, rfl, rfl⟩
      simp only [createStoryFromCluster, synthesizeArticles, fallbackSynthesis,
        fallbackSection, List.foldl_nil, List.isEmpty_nil]
      rw [if_neg (by simp)]
      simp [List.mem_append, fallbackSection]

/-- Count produced by the materialization loop equals the number of
successful outcomes in its per-cluster trace. -/
lemma materializeAll_count_eq (envs : ℕ → RunEnv) :
    ∀ (l : List Cluster) (k : ℕ) (db : DB),
      (materializeAll envs k db l).1 =
        ((materializeOutcomes envs k db l).filter (fun o => o.isSome)).length := by
  intro l
  induction l with
  | nil => intro k db; simp [materializeAll, materializeOutcomes]
  | cons c rest ih =>
    intro k db
    simp only [materializeAll, materializeOutcomes, List.filter_cons]
    cases h : (createStoryFromCluster (envs k) db c).1 <;>
      simp [h, ih (k + 1) (createStoryFromCluster (envs k) db c).2, Nat.add_comm]

/-- The materialization loop visits every cluster of its input: the outcome
trace has one entry per cluster. -/
lemma materializeOutcomes_length (envs : ℕ → RunEnv) :
    ∀ (l : List Cluster) (k : ℕ) (db : DB),
      (materializeOutcomes envs k db l).length = l.length := by
  intro l
  induction l with
  | nil => intro k db; rfl
  | cons c rest ih =>
    intro k db
    simp [materializeOutcomes, ih (k + 1) (createStoryFromCluster (envs k) db c).2]

/-- C7: a cluster whose story insert fails yields `null` from
`createStoryFromCluster` (the failure is absorbed inside the call, never
thrown to the job loop); the job's materialization loop still visits every
valid cluster (the outcome trace has one entry per valid cluster), and the
returned `storiesCreated` equals the number of clusters whose
materialization actually produced a story, reflecting partial completion. -/
theorem cluster_failure_isolated_counts :
    (∀ (synth : Option RawSynthesis) (db : DB) (cluster : Cluster),
      (createStoryFromCluster ⟨synth, none⟩ db cluster).1 = none) ∧
    (∀ (db : DB) (a0 a1 : Article) (rest : List Article) (envs : ℕ → RunEnv),
      (runClusteringJob db (a0 :: a1 :: rest) envs).1.storiesCreated =
        ((materializeOutcomes envs 0 db (validClustersOf (a0 :: a1 :: rest))).filter
          (fun o => o.isSome)).length ∧
      (materializeOutcomes envs 0 db (validClustersOf (a0 :: a1 :: rest))).length =
        (validClustersOf (a0 :: a1 :: rest)).length) := by
  constructor
  · intro synth db cluster
    unfold createStoryFromCluster
    split
    · rfl
    · split
      · rfl
      · rfl
  · intro db a0 a1 rest envs
    constructor
    · unfold runClusteringJob
      rw [if_neg (by simp)]
      exact materializeAll_count_eq envs (validClustersOf (a0 :: a1 :: rest)) 0 db
    · exact materializeOutcomes_length envs (validClustersOf (a0 :: a1 :: rest)) 0 db

/-- C8: clusters with fewer than two member articles (empty or singleton)
produce no story and leave the store untouched, and `runClusteringJob`
materializes exactly the clusters that pass the two-member filter — every
cluster it hands to the materialization loop has at least two members, and
the job's result fields are computed from that filtered list alone. -/
theorem small_clusters_never_promoted :
    (∀ (env : RunEnv) (db : DB) (score : ℝ),
      createStoryFromCluster env db ⟨[], score⟩ = (none, db) ∧
      ∀ a : Article, createStoryFromCluster env db ⟨[a], score⟩ = (none, db)) ∧
    (∀ (db : DB) (a0 a1 : Article) (rest : List Article) (envs : ℕ → RunEnv),
      runClusteringJob db (a0 :: a1 :: rest) envs =
        (⟨(a0 :: a1 :: rest).length,
          (materializeAll envs 0 db (validClustersOf (a0 :: a1 :: rest))).1,
          (validClustersOf (a0 :: a1 :: rest)).length⟩,
         (materializeAll envs 0 db (validClustersOf (a0 :: a1 :: rest))).2) ∧
      ∀ c ∈ validClustersOf (a0 :: a1 :: rest), 2 ≤ c.articles.length) := by
  constructor
  · intro env db score
    exact ⟨rfl, fun a => rfl⟩
  · intro db a0 a1 rest envs
    constructor
    · unfold runClusteringJob
      rw [if_neg (by simp)]
      rfl
    · intro c hc
      have := List.of_mem_filter hc
      simpa using this

/-- Row written by a resolved `mergeConnection` call: endpoints by id, the
relationship type, its derived label, and the call's strength, evidence and
story id. -/
def mergedRow (sid s t : String) (c : EntityConnectionSpec) : EntityConnectionRow :=
  ⟨s, t, c.relationship, underscoresToSpaces c.relationship,
    c.strength, c.evidence, sid⟩

/-- Upserting behind a cons whose head does not carry the conflict key
commutes with the cons. -/
lemma upsertConnection_cons_ne (row : EntityConnectionRow)
    (rest : List EntityConnectionRow) (r : EntityConnectionRow)
    (hk : (connKey row == connKey r) = false) :
    upsertConnection (row :: rest) r = row :: upsertConnection rest r := by
  unfold upsertConnection
  have hanyc : (row :: rest).any (fun x => connKey x == connKey r) =
      rest.any (fun x => connKey x == connKey r) := by
    simp [List.any_cons, hk]
  rw [hanyc]
  cases hany : rest.any (fun x => connKey x == connKey r) with
  | true =>
    simp [hk]
    intro h
    rw [h] at hk
    simp at hk
  | false => simp

/-- After upserting into a row list that carries the conflict key at most
once, the rows with that key are exactly the upserted row. -/
lemma upsertConnection_filter (r : EntityConnectionRow) :
    ∀ rows : List EntityConnectionRow,
      rows.countP (fun x => connKey x == connKey r) ≤ 1 →
      (upsertConnection rows r).filter (fun x => connKey x == connKey r) = [r] := by
  intro rows
  induction rows with
  | nil =>
    intro _
    simp [upsertConnection]
  | cons row rest ih =>
    intro hcount
    rw [List.countP_cons] at hcount
    by_cases hk : (connKey row == connKey r) = true
    · have hrest0 : rest.countP (fun x => connKey x == connKey r) = 0 := by
        simp only [hk, if_true] at hcount
        omega
      have hnone : ∀ x ∈ rest, ¬ ((connKey x == connKey r) = true) :=
        List.countP_eq_zero.mp hrest0
      have hany : (row :: rest).any (fun x => connKey x == connKey r) = true := by
        simp [List.any_cons, hk]
      unfold upsertConnection
      rw [if_pos hany]
      have hmap : rest.map (fun x => if connKey x == connKey r then r else x) = rest := by
        have hmap' : rest.map (fun x => if connKey x == connKey r then r else x) =
            List.map id rest :=
          List.map_congr_left (fun x hx => by simp [hnone x hx])
        rw [hmap', List.map_id]
      simp only [List.map_cons, hk, if_true, hmap]
      rw [List.filter_cons]
      simp only [beq_self_eq_true, if_true]
      rw [List.filter_eq_nil_iff.mpr hnone]
    · have hk' : (connKey row == connKey r) = false := by
        simpa using hk
      have hcount' : rest.countP (fun x => connKey x == connKey r) ≤ 1 := by
        omega
      rw [upsertConnection_cons_ne row rest r hk', List.filter_cons]
      simp only [hk', if_false, Bool.false_eq_true]
      exact ih hcount'

/-- Resolved-endpoint unfolding of `mergeConnection`. -/
lemma mergeConnection_resolved (sid : String) (db : DB) (c : EntityConnectionSpec)
    (s t : String) (hs : lookupEntityId db c.source = some s)
    (ht : lookupEntityId db c.target = some t) :
    mergeConnection sid db c =
      { db with entity_connections := upsertConnection db.entity_connections (mergedRow sid s t c) } := by
  unfold mergeConnection mergedRow
  rw [hs, ht]

/-- Entity lookups read only the entity table. -/
lemma lookupEntityId_congr (db db' : DB) (h : db'.entities = db.entities) (n : String) :
    lookupEntityId db' n = lookupEntityId db n := by
  unfold lookupEntityId
  rw [h]

/-- C6: merging a connection never creates an entity (the entity table and
the id counter are untouched); a connection whose source or target name
fails to resolve is skipped entirely, leaving the store unchanged rather
than failing the enclosing story creation; and merging two connections that
resolve to the same `(source_entity_id, target_entity_id,
relationship_type)` triple into a store holding that key at most once
leaves exactly one row with that key — the second call's row, carrying its
label, strength, evidence and story id (`mergedRow sid2 s t c2`, whose
fields are exactly those of the second call). -/
theorem connection_merge_semantics :
    (∀ (storyId : String) (db : DB) (c : EntityConnectionSpec),
      (mergeConnection storyId db c).entities = db.entities ∧
      (mergeConnection storyId db c).nextEntityId = db.nextEntityId) ∧
    (∀ (storyId : String) (db : DB) (c : EntityConnectionSpec),
      lookupEntityId db c.source = none ∨ lookupEntityId db c.target = none →
      mergeConnection storyId db c = db) ∧
    (∀ (sid1 sid2 : String) (db : DB) (c1 c2 : EntityConnectionSpec) (s t : String),
      lookupEntityId db c1.source = some s → lookupEntityId db c1.target = some t →
      lookupEntityId db c2.source = some s → lookupEntityId db c2.target = some t →
      c1.relationship = c2.relationship →
      db.entity_connections.countP (fun x => connKey x == (s, t, c2.relationship)) ≤ 1 →
      (mergeConnection sid2 (mergeConnection sid1 db c1) c2).entity_connections.filter
          (fun x => connKey x == (s, t, c2.relationship)) = [mergedRow sid2 s t c2]) := by
  refine ⟨?_, ?_, ?_⟩
  · intro storyId db c
    unfold mergeConnection
    cases lookupEntityId db c.source <;> cases lookupEntityId db c.target <;>
      exact ⟨rfl, rfl⟩
  · intro storyId db c h
    rcases h with h | h
    · unfold mergeConnection
      rw [h]
    · unfold mergeConnection
      rw [h]
      cases lookupEntityId db c.source <;> rfl
  · intro sid1 sid2 db c1 c2 s t hs1 ht1 hs2 ht2 hrel hcount
    have hdb1 := mergeConnection_resolved sid1 db c1 s t hs1 ht1
    have hent : (mergeConnection sid1 db c1).entities = db.entities := by
      rw [hdb1]
    have hs2' : lookupEntityId (mergeConnection sid1 db c1) c2.source = some s := by
      rw [lookupEntityId_congr db (mergeConnection sid1 db c1) hent]
      exact hs2
    have ht2' : lookupEntityId (mergeConnection sid1 db c1) c2.target = some t := by
      rw [lookupEntityId_congr db (mergeConnection sid1 db c1) hent]
      exact ht2
    rw [mergeConnection_resolved sid2 (mergeConnection sid1 db c1) c2 s t hs2' ht2', hdb1]
    have hkey1 : connKey (mergedRow sid1 s t c1) = (s, t, c2.relationship) := by
      simp [mergedRow, connKey, hrel]
    have hkey2 : connKey (mergedRow sid2 s t c2) = (s, t, c2.relationship) := by
      simp [mergedRow, connKey]
    have hcount1 :
        (upsertConnection db.entity_connections (mergedRow sid1 s t c1)).countP
          (fun x => connKey x == connKey (mergedRow sid1 s t c1)) ≤ 1 := by
      rw [List.countP_eq_length_filter, upsertConnection_filter (mergedRow sid1 s t c1)
        db.entity_connections (by rw [hkey1]; exact hcount)]
      simp
    have hfinal := upsertConnection_filter (mergedRow sid2 s t c2)
      (upsertConnection db.entity_connections (mergedRow sid1 s t c1))
      (by rw [hkey2, ← hkey1]; exact hcount1)
    rw [hkey2] at hfinal
    exact hfinal

/-- Store used by the C6 witness: two entities, no connections. -/
def dbC6 : DB :=
  ⟨[], [], [⟨"e1", "Acme", "company"⟩, ⟨"e2", "Globex", "company"⟩], [], [], [], 0⟩

/-- First merge of the C6 witness (case-insensitive endpoint names). -/
def connC6a : EntityConnectionSpec := ⟨"acme", "GLOBEX", "owns", "evidence one", 1/2⟩

/-- Second merge of the C6 witness: same resolved triple, new values. -/
def connC6b : EntityConnectionSpec := ⟨"Acme", "globex", "owns", "evidence two", 9/10⟩

/-- Unresolvable connection of the C6 witness. -/
def connC6bad : EntityConnectionSpec := ⟨"Nobody", "globex", "owns", "evidence", 1⟩

/-- Witness for C6 at a concrete store: merging preserves the entity table,
an unresolvable endpoint leaves the store unchanged, and re-merging the
same resolved triple leaves exactly the second call's row. -/
theorem connection_merge_semantics_witness :
    (mergeConnection "story1" dbC6 connC6a).entities = dbC6.entities ∧
    mergeConnection "story1" dbC6 connC6bad = dbC6 ∧
    (mergeConnection "story2" (mergeConnection "story1" dbC6 connC6a)
        connC6b).entity_connections.filter
      (fun x => connKey x == ("e1", "e2", connC6b.relationship)) =
      [mergedRow "story2" "e1" "e2" connC6b] := by
  refine ⟨(connection_merge_semantics.1 "story1" dbC6 connC6a).1, ?_, ?_⟩
  · exact connection_merge_semantics.2.1 "story1" dbC6 connC6bad (Or.inl (by decide))
  · exact connection_merge_semantics.2.2 "story1" "story2" dbC6 connC6a connC6b "e1" "e2"
      (by decide) (by decide) (by decide) (by decide) rfl (by decide)

/-- Cosine similarity is nonnegative (both branches of the guard). -/
lemma cosineSimilarity_nonneg (tokens1 tokens2 : List String) :
    0 ≤ cosineSimilarity tokens1 tokens2 := by
  unfold cosineSimilarity
  split
  · exact le_refl 0
  · positivity

/-- Cosine similarity is at most 1, by the Cauchy–Schwarz inequality applied
to the two frequency vectors. -/
lemma cosineSimilarity_le_one (tokens1 tokens2 : List String) :
    cosineSimilarity tokens1 tokens2 ≤ 1 := by
  unfold cosineSimilarity
  split
  · exact zero_le_one
  · rename_i h
    push_neg at h
    obtain ⟨h1, h2⟩ := h
    have hm1 : (0 : ℝ) < (magnitude1 tokens1 tokens2 : ℝ) := by
      exact_mod_cast Nat.pos_of_ne_zero h1
    have hm2 : (0 : ℝ) < (magnitude2 tokens1 tokens2 : ℝ) := by
      exact_mod_cast Nat.pos_of_ne_zero h2
    have hd : (0 : ℝ) <
        Real.sqrt (magnitude1 tokens1 tokens2) * Real.sqrt (magnitude2 tokens1 tokens2) :=
      mul_pos (Real.sqrt_pos.mpr hm1) (Real.sqrt_pos.mpr hm2)
    rw [div_le_one hd]
    have hdot : (dotProduct tokens1 tokens2 : ℝ) =
        ∑ term ∈ allTerms tokens1 tokens2,
          (tokens1.count term : ℝ) * (tokens2.count term : ℝ) := by
      unfold dotProduct
      push_cast
      rfl
    have hmag1 : (magnitude1 tokens1 tokens2 : ℝ) =
        ∑ term ∈ allTerms tokens1 tokens2, (tokens1.count term : ℝ) ^ 2 := by
      unfold magnitude1
      push_cast
      rfl
    have hmag2 : (magnitude2 tokens1 tokens2 : ℝ) =
        ∑ term ∈ allTerms tokens1 tokens2, (tokens2.count term : ℝ) ^ 2 := by
      unfold magnitude2
      push_cast
      rfl
    rw [hdot, hmag1, hmag2]
    exact Real.sum_mul_le_sqrt_mul_sqrt (allTerms tokens1 tokens2)
      (fun term => (tokens1.count term : ℝ)) (fun term => (tokens2.count term : ℝ))

/-- Any defined Jaccard value lies in [0, 1]. -/
lemma jaccardSimilarity_some_bounds (tokens1 tokens2 : List String) (q : ℚ)
    (h : jaccardSimilarity tokens1 tokens2 = some q) : 0 ≤ q ∧ q ≤ 1 := by
  simp only [jaccardSimilarity] at h
  split at h
  · exact absurd h (by simp)
  · rename_i hu
    have hq := Option.some.inj h
    have hcard : (tokens1.toFinset ∩ tokens2.toFinset).card ≤
        (tokens1.toFinset ∪ tokens2.toFinset).card :=
      Finset.card_le_card Finset.inter_subset_union
    have hupos : (0 : ℚ) < ((tokens1.toFinset ∪ tokens2.toFinset).card : ℚ) := by
      exact_mod_cast Nat.pos_of_ne_zero hu
    constructor
    · rw [← hq]
      positivity
    · rw [← hq, div_le_one hupos]
      exact_mod_cast hcard

/-- Any defined combined score lies in [0, 1]. -/
lemma calculateSimilarity_some_bounds (a1 a2 : Article) (v : ℝ)
    (h : calculateSimilarity a1 a2 = some v) : 0 ≤ v ∧ v ≤ 1 := by
  simp only [calculateSimilarity] at h
  cases hj : jaccardSimilarity (tokenize (a1.title ++ " " ++ a1.excerpt))
      (tokenize (a2.title ++ " " ++ a2.excerpt)) with
  | none => rw [hj] at h; exact absurd h (by simp)
  | some q =>
    rw [hj] at h
    have hv := Option.some.inj h
    obtain ⟨hq0, hq1⟩ := jaccardSimilarity_some_bounds _ _ q hj
    have hc0 := cosineSimilarity_nonneg (tokenize (a1.title ++ " " ++ a1.excerpt))
      (tokenize (a2.title ++ " " ++ a2.excerpt))
    have hc1 := cosineSimilarity_le_one (tokenize (a1.title ++ " " ++ a1.excerpt))
      (tokenize (a2.title ++ " " ++ a2.excerpt))
    have hq0' : (0 : ℝ) ≤ (q : ℝ) := by exact_mod_cast hq0
    have hq1' : (q : ℝ) ≤ 1 := by exact_mod_cast hq1
    constructor
    · rw [← hv]; linarith
    · rw [← hv]; linarith

/-- Counterexample for C3 as stated: on two empty token lists the source
divides the empty intersection's size by the empty union's size, `0 / 0`,
which is `NaN`, not 0; consequently two articles whose texts tokenize to
nothing (here "the of": a stop word and a too-short word) get a `NaN`
combined similarity, which is not a value in [0, 1]. -/
theorem jaccardSimilarity_empty_union_counterexample :
    jaccardSimilarity [] [] = none ∧
    jaccardSimilarity ([] : List String) [] ≠ some 0 ∧
    calculateSimilarity ⟨"a1", "the of", "", "u", "s", 0, none⟩
      ⟨"a1", "the of", "", "u", "s", 0, none⟩ = none :=
  ⟨by decide, by decide, rfl⟩

/-- C3 (amended): `jaccardSimilarity` returns the intersection size divided
by the union size whenever the union is nonempty, and any value it returns
lies in [0, 1]; when both token lists are empty the unguarded `0 / 0` gives
`NaN` (`none`), not 0; and `calculateSimilarity` returns a value in [0, 1]
in every case in which it returns a value at all (the `NaN` case being
exactly that of two token-less articles). -/
theorem similarity_bounds_with_nan :
    (∀ tokens1 tokens2 : List String,
      (tokens1.toFinset ∪ tokens2.toFinset).card ≠ 0 →
      jaccardSimilarity tokens1 tokens2 =
        some (((tokens1.toFinset ∩ tokens2.toFinset).card : ℚ) /
          ((tokens1.toFinset ∪ tokens2.toFinset).card : ℚ)) ∧
      ∀ q, jaccardSimilarity tokens1 tokens2 = some q → 0 ≤ q ∧ q ≤ 1) ∧
    (∀ tokens1 tokens2 : List String, tokens1 = [] → tokens2 = [] →
      jaccardSimilarity tokens1 tokens2 = none) ∧
    (∀ (a1 a2 : Article) (v : ℝ), calculateSimilarity a1 a2 = some v →
      0 ≤ v ∧ v ≤ 1) := by
  refine ⟨?_, ?_, calculateSimilarity_some_bounds⟩
  · intro tokens1 tokens2 hu
    constructor
    · simp only [jaccardSimilarity]
      rw [if_neg hu]
    · intro q hq
      exact jaccardSimilarity_some_bounds tokens1 tokens2 q hq
  · intro tokens1 tokens2 h1 h2
    subst h1
    subst h2
    decide

/-- Article used by the C3 witness, tokenizing to ["alpha"]. -/
def artC3 : Article := ⟨"w1", "alpha", "", "u", "s", 0, none⟩

/-- Second article of the C3 witness, tokenizing to ["beta"]. -/
def artC3b : Article := ⟨"w2", "beta", "", "u", "s", 0, none⟩

/-- Witness for C3: the defined-Jaccard equation at a concrete nonempty
union, the `NaN` case at the empty lists, and the [0, 1] bound at a fully
evaluated concrete combined score. -/
theorem similarity_bounds_with_nan_witness :
    (jaccardSimilarity ["alpha"] ["beta"] =
      some (((["alpha"].toFinset ∩ ["beta"].toFinset).card : ℚ) /
        ((["alpha"].toFinset ∪ ["beta"].toFinset).card : ℚ))) ∧
    jaccardSimilarity [] [] = none ∧
    calculateSimilarity artC3 artC3b = some 0 ∧
    (0 ≤ (0 : ℝ) ∧ (0 : ℝ) ≤ 1) := by
  have heval : calculateSimilarity artC3 artC3b = some 0 := by
    have ht1 : tokenize (artC3.title ++ " " ++ artC3.excerpt) = ["alpha"] := by decide
    have ht2 : tokenize (artC3b.title ++ " " ++ artC3b.excerpt) = ["beta"] := by decide
    have hj : jaccardSimilarity ["alpha"] ["beta"] = some 0 := by
      simp only [jaccardSimilarity]
      rw [if_neg (by decide)]
      congr 1
      have h1 : (["alpha"].toFinset ∩ ["beta"].toFinset).card = 0 := by decide
      have h2 : (["alpha"].toFinset ∪ ["beta"].toFinset).card = 2 := by decide
      rw [h1, h2]
      norm_num
    have hcos : cosineSimilarity ["alpha"] ["beta"] = 0 := by
      unfold cosineSimilarity
      rw [if_neg (by decide)]
      have hd : dotProduct ["alpha"] ["beta"] = 0 := by decide
      rw [hd]
      norm_num
    simp only [calculateSimilarity, ht1, ht2, hj, hcos]
    norm_num
  exact ⟨(similarity_bounds_with_nan.1 ["alpha"] ["beta"] (by decide)).1,
    similarity_bounds_with_nan.2.1 [] [] rfl rfl,
    heval,
    similarity_bounds_with_nan.2.2 artC3 artC3b 0 heval⟩

/-- Inserting into the recency order is a permutation-preserving cons. -/
lemma insertByRecency_perm (a : Article) :
    ∀ l : List Article, (insertByRecency a l).Perm (a :: l) := by
  intro l
  induction l with
  | nil => exact List.Perm.refl _
  | cons b rest ih =>
    unfold insertByRecency
    split
    · exact List.Perm.refl _
    · exact List.Perm.trans (ih.cons b) (List.Perm.swap a b rest)

/-- Folded insertion accumulates a permutation of the processed articles. -/
lemma sortByRecency_perm_aux :
    ∀ (l acc : List Article),
      (l.foldl (fun acc a => insertByRecency a acc) acc).Perm (l ++ acc) := by
  intro l
  induction l with
  | nil => intro acc; simp
  | cons a rest ih =>
    intro acc
    simp only [List.foldl_cons, List.cons_append]
    have step1 := ih (insertByRecency a acc)
    have step2 : (rest ++ insertByRecency a acc).Perm (rest ++ (a :: acc)) :=
      (insertByRecency_perm a acc).append_left rest
    have step3 : (rest ++ (a :: acc)).Perm (a :: (rest ++ acc)) := List.perm_middle
    exact (step1.trans step2).trans step3

/-- The recency sort permutes its input. -/
lemma sortByRecency_perm (l : List Article) : (sortByRecency l).Perm l := by
  have h := sortByRecency_perm_aux l []
  simpa [sortByRecency] using h

/-- Insertion preserves the non-increasing recency order. -/
lemma insertByRecency_pairwise (a : Article) :
    ∀ l : List Article,
      l.Pairwise (fun x y => y.published_at ≤ x.published_at) →
      (insertByRecency a l).Pairwise (fun x y => y.published_at ≤ x.published_at) := by
  intro l
  induction l with
  | nil => intro _; simp [insertByRecency]
  | cons b rest ih =>
    intro h
    rw [List.pairwise_cons] at h
    obtain ⟨hb, hrest⟩ := h
    unfold insertByRecency
    split
    · rename_i hba
      rw [List.pairwise_cons]
      refine ⟨?_, ?_⟩
      · intro z hz
        rcases List.mem_cons.mp hz with rfl | hz
        · exact le_of_lt hba
        · exact le_trans (hb z hz) (le_of_lt hba)
      · rw [List.pairwise_cons]
        exact ⟨hb, hrest⟩
    · rename_i hba
      rw [List.pairwise_cons]
      refine ⟨?_, ih hrest⟩
      · intro z hz
        have hz' := (insertByRecency_perm a rest).mem_iff.mp hz
        rcases List.mem_cons.mp hz' with rfl | hz'
        · exact le_of_not_lt hba
        · exact hb z hz'

/-- The recency sort produces a non-increasing `published_at` sequence. -/
lemma sortByRecency_pairwise (l : List Article) :
    (sortByRecency l).Pairwise (fun x y => y.published_at ≤ x.published_at) := by
  have haux : ∀ (m acc : List Article),
      acc.Pairwise (fun x y => y.published_at ≤ x.published_at) →
      (m.foldl (fun acc a => insertByRecency a acc) acc).Pairwise
        (fun x y => y.published_at ≤ x.published_at) := by
    intro m
    induction m with
    | nil => intro acc h; simpa using h
    | cons a rest ih =>
      intro acc h
      simp only [List.foldl_cons]
      exact ih (insertByRecency a acc) (insertByRecency_pairwise a acc h)
  exact haux l [] (by simp)

/-- Admission history of a growing cluster: starting from the member list
`members`, each recorded pair `(candidate, avg)` is one admission whose
average similarity against every then-current member was defined and at
least the threshold, the candidate being appended to the member list before
the next admission is considered. -/
inductive AdmissionChain (sim : Article → Article → Option ℝ) (threshold : ℝ) :
    List Article → List (Article × ℝ) → Prop
  | nil (members : List Article) : AdmissionChain sim threshold members []
  | cons (members : List Article) (candidate : Article) (avg : ℝ)
      (rest : List (Article × ℝ))
      (havg : optAvg (members.map (fun a => sim a candidate)) = some avg)
      (hthr : threshold ≤ avg)
      (hrest : AdmissionChain sim threshold (members ++ [candidate]) rest) :
      AdmissionChain sim threshold members ((candidate, avg) :: rest)

/-- Every admission of a chain meets the threshold. -/
lemma AdmissionChain.snd_ge (sim : Article → Article → Option ℝ) (threshold : ℝ) :
    ∀ {members : List Article} {adds : List (Article × ℝ)},
      AdmissionChain sim threshold members adds → ∀ p ∈ adds, threshold ≤ p.2 := by
  intro members adds h
  induction h with
  | nil => intro p hp; exact absurd hp (List.not_mem_nil p)
  | cons members candidate avg rest havg hthr hrest ih =>
    intro p hp
    rcases List.mem_cons.mp hp with rfl | hp
    · exact hthr
    · exact ih p hp

/-- Folding `min` never raises the start value. -/
lemma foldl_min_le_start : ∀ (l : List ℝ) (x : ℝ), l.foldl min x ≤ x := by
  intro l
  induction l with
  | nil => intro x; exact le_refl x
  | cons a rest ih =>
    intro x
    calc rest.foldl min (min x a) ≤ min x a := ih (min x a)
      _ ≤ x := min_le_left x a

/-- Full characterization of one candidate scan: the scan extends the
cluster by a list of admissions `adds` (a subsequence of the candidate
list, none previously assigned), lowers the score to the running minimum of
the admission averages, pushes exactly the admitted ids onto the assigned
set, and the admissions form a valid chain from the cluster's member
list. -/
lemma growCluster_spec (sim : Article → Article → Option ℝ) (threshold : ℝ) :
    ∀ (cands : List Article) (cl : Cluster) (assigned : List String),
      ∃ adds : List (Article × ℝ),
        (growCluster sim threshold cl assigned cands).1.articles =
          cl.articles ++ adds.map Prod.fst ∧
        (growCluster sim threshold cl assigned cands).1.similarity =
          (adds.map Prod.snd).foldl min cl.similarity ∧
        (growCluster sim threshold cl assigned cands).2 =
          ((adds.map Prod.fst).map Article.id).reverse ++ assigned ∧
        (adds.map Prod.fst).Sublist cands ∧
        (∀ b ∈ adds.map Prod.fst, b.id ∉ assigned) ∧
        AdmissionChain sim threshold cl.articles adds := by
  intro cands
  induction cands with
  | nil =>
    intro cl assigned
    exact ⟨[], by simp [growCluster], by simp [growCluster], by simp [growCluster],
      List.nil_sublist _, by simp, AdmissionChain.nil _⟩
  | cons cand rest ih =>
    intro cl assigned
    by_cases hmem : cand.id ∈ assigned
    · obtain ⟨adds, h1, h2, h3, h4, h5, h6⟩ := ih cl assigned
      exact ⟨adds, by simpa [growCluster, hmem] using h1,
        by simpa [growCluster, hmem] using h2,
        by simpa [growCluster, hmem] using h3,
        h4.cons cand, h5, h6⟩
    · cases havg : optAvg (cl.articles.map (fun a => sim a cand)) with
      | none =>
        obtain ⟨adds, h1, h2, h3, h4, h5, h6⟩ := ih cl assigned
        exact ⟨adds, by simpa [growCluster, hmem, havg] using h1,
          by simpa [growCluster, hmem, havg] using h2,
          by simpa [growCluster, hmem, havg] using h3,
          h4.cons cand, h5, h6⟩
      | some avg =>
        by_cases hthr : threshold ≤ avg
        · obtain ⟨adds, h1, h2, h3, h4, h5, h6⟩ :=
            ih ⟨cl.articles ++ [cand], min cl.similarity avg⟩ (cand.id :: assigned)
          have hstep : growCluster sim threshold cl assigned (cand :: rest) =
              growCluster sim threshold ⟨cl.articles ++ [cand], min cl.similarity avg⟩
                (cand.id :: assigned) rest := by
            simp [growCluster, hmem, havg, hthr]
          refine ⟨(cand, avg) :: adds, ?_, ?_, ?_, ?_, ?_, ?_⟩
          · rw [hstep, h1]
            simp
          · rw [hstep, h2]
            simp
          · rw [hstep, h3]
            simp
          · simpa using h4.cons₂ cand
          · intro b hb
            simp only [List.map_cons, List.mem_cons] at hb
            rcases hb with rfl | hb
            · exact hmem
            · intro hcontra
              exact h5 b hb (List.mem_cons_of_mem _ hcontra)
          · exact AdmissionChain.cons cl.articles cand avg adds havg hthr h6
        · obtain ⟨adds, h1, h2, h3, h4, h5, h6⟩ := ih cl assigned
          exact ⟨adds, by simpa [growCluster, hmem, havg, hthr] using h1,
            by simpa [growCluster, hmem, havg, hthr] using h2,
            by simpa [growCluster, hmem, havg, hthr] using h3,
            h4.cons cand, h5, h6⟩

/-- Unfolding of the outer loop at an already-assigned article. -/
lemma buildClusters_cons_mem (sim : Article → Article → Option ℝ) (threshold : ℝ)
    (sorted : List Article) {e : Article} {assigned : List String}
    (rest : List Article) (he : e.id ∈ assigned) :
    buildClusters sim threshold sorted (e :: rest) assigned =
      buildClusters sim threshold sorted rest assigned := by
  simp [buildClusters, he]

/-- Unfolding of the outer loop at a fresh seed. -/
lemma buildClusters_cons_new (sim : Article → Article → Option ℝ) (threshold : ℝ)
    (sorted : List Article) {e : Article} {assigned : List String}
    (rest : List Article) (he : e.id ∉ assigned) :
    buildClusters sim threshold sorted (e :: rest) assigned =
      (growCluster sim threshold ⟨[e], 1⟩ (e.id :: assigned) sorted).1 ::
        buildClusters sim threshold sorted rest
          (growCluster sim threshold ⟨[e], 1⟩ (e.id :: assigned) sorted).2 := by
  simp [buildClusters, he]

/-- A sublist of a concatenation avoiding the left part is a sublist of the
right part. -/
lemma sublist_append_of_disjoint_left {α : Type} {l l1 l2 : List α}
    (h : l.Sublist (l1 ++ l2)) (hd : ∀ x ∈ l, x ∉ l1) : l.Sublist l2 := by
  induction l1 generalizing l with
  | nil => simpa using h
  | cons a l1' ih =>
    cases h with
    | cons _ h' => exact ih h' (fun x hx hx' => hd x hx (List.mem_cons_of_mem a hx'))
    | cons₂ _ h' =>
      exact absurd (List.mem_cons_self a l1') (hd a (List.mem_cons_self a _))

/-- Once an article's id is in the assigned set, no later cluster ever
contains that article. -/
lemma buildClusters_not_assigned (sim : Article → Article → Option ℝ) (threshold : ℝ)
    (sorted : List Article) :
    ∀ (outer : List Article) (assigned : List String) (a : Article),
      a.id ∈ assigned →
      ∀ c ∈ buildClusters sim threshold sorted outer assigned, a ∉ c.articles := by
  intro outer
  induction outer with
  | nil =>
    intro assigned a _ c hc
    simp [buildClusters] at hc
  | cons e rest ih =>
    intro assigned a ha c hc
    by_cases he : e.id ∈ assigned
    · rw [buildClusters_cons_mem sim threshold sorted rest he] at hc
      exact ih assigned a ha c hc
    · obtain ⟨adds, h1, h2, h3, h4, h5, h6⟩ :=
        growCluster_spec sim threshold sorted ⟨[e], 1⟩ (e.id :: assigned)
      rw [buildClusters_cons_new sim threshold sorted rest he] at hc
      rcases List.mem_cons.mp hc with rfl | hc
      · rw [h1]
        intro hmem
        rcases List.mem_append.mp hmem with hmem | hmem
        · have hae : a = e := by simpa using hmem
          subst hae
          exact he ha
        · exact (h5 a hmem) (List.mem_cons_of_mem _ ha)
      · refine ih _ a ?_ c hc
        rw [h3]
        exact List.mem_append_right _ (List.mem_cons_of_mem _ ha)

/-- Every cluster contains its seed. -/
lemma buildClusters_nonempty (sim : Article → Article → Option ℝ) (threshold : ℝ)
    (sorted : List Article) :
    ∀ (outer : List Article) (assigned : List String),
      ∀ c ∈ buildClusters sim threshold sorted outer assigned, c.articles ≠ [] := by
  intro outer
  induction outer with
  | nil =>
    intro assigned c hc
    simp [buildClusters] at hc
  | cons e rest ih =>
    intro assigned c hc
    by_cases he : e.id ∈ assigned
    · rw [buildClusters_cons_mem sim threshold sorted rest he] at hc
      exact ih assigned c hc
    · obtain ⟨adds, h1, _, _, _, _, _⟩ :=
        growCluster_spec sim threshold sorted ⟨[e], 1⟩ (e.id :: assigned)
      rw [buildClusters_cons_new sim threshold sorted rest he] at hc
      rcases List.mem_cons.mp hc with rfl | hc
      · rw [h1]
        simp
      · exact ih _ c hc

/-- An unassigned article of the remaining outer scan ends up in exactly one
of the produced clusters, provided the sorted batch has pairwise distinct
ids. -/
lemma buildClusters_count_one (sim : Article → Article → Option ℝ) (threshold : ℝ)
    (sorted : List Article) (hnd : (sorted.map Article.id).Nodup) :
    ∀ (outer : List Article) (assigned : List String) (a : Article),
      outer.Sublist sorted → a ∈ outer → a.id ∉ assigned →
      (buildClusters sim threshold sorted outer assigned).countP
        (fun c => decide (a ∈ c.articles)) = 1 := by
  have hinj := List.inj_on_of_nodup_map hnd
  intro outer
  induction outer with
  | nil =>
    intro assigned a _ ha _
    exact absurd ha (List.not_mem_nil a)
  | cons e rest ih =>
    intro assigned a houter ha hid
    have hrest_sub : rest.Sublist sorted := (List.sublist_cons_self e rest).trans houter
    have he_mem : e ∈ sorted := houter.subset (List.mem_cons_self e rest)
    by_cases he : e.id ∈ assigned
    · rw [buildClusters_cons_mem sim threshold sorted rest he]
      have hae : a ≠ e := fun hcontra => hid (hcontra ▸ he)
      have ha_rest : a ∈ rest := by
        rcases List.mem_cons.mp ha with rfl | h
        · exact absurd rfl hae
        · exact h
      exact ih assigned a hrest_sub ha_rest hid
    · obtain ⟨adds, h1, h2, h3, h4, h5, h6⟩ :=
        growCluster_spec sim threshold sorted ⟨[e], 1⟩ (e.id :: assigned)
      rw [buildClusters_cons_new sim threshold sorted rest he, List.countP_cons]
      by_cases hae : a = e
      · subst hae
        have hpred : decide
            (a ∈ (growCluster sim threshold ⟨[a], 1⟩ (a.id :: assigned) sorted).1.articles) =
            true := by
          rw [h1]
          simp
        have htail : (buildClusters sim threshold sorted rest
            (growCluster sim threshold ⟨[a], 1⟩ (a.id :: assigned) sorted).2).countP
            (fun c => decide (a ∈ c.articles)) = 0 := by
          rw [List.countP_eq_zero]
          intro c hc
          have hnotin := buildClusters_not_assigned sim threshold sorted rest _ a
            (by rw [h3]; exact List.mem_append_right _ (List.mem_cons_self _ _)) c hc
          simpa using hnotin
        rw [htail, hpred]
        simp
      · have ha_rest : a ∈ rest := by
          rcases List.mem_cons.mp ha with rfl | h
          · exact absurd rfl hae
          · exact h
        have ha_sorted : a ∈ sorted := houter.subset ha
        by_cases hain : a ∈ adds.map Prod.fst
        · have hpred : decide
              (a ∈ (growCluster sim threshold ⟨[e], 1⟩ (e.id :: assigned) sorted).1.articles) =
              true := by
            rw [h1]
            simp [hain]
          have htail : (buildClusters sim threshold sorted rest
              (growCluster sim threshold ⟨[e], 1⟩ (e.id :: assigned) sorted).2).countP
              (fun c => decide (a ∈ c.articles)) = 0 := by
            rw [List.countP_eq_zero]
            intro c hc
            have haid : a.id ∈
                (growCluster sim threshold ⟨[e], 1⟩ (e.id :: assigned) sorted).2 := by
              rw [h3]
              refine List.mem_append_left _ ?_
              rw [List.mem_reverse]
              exact List.mem_map.mpr ⟨a, hain, rfl⟩
            have hnotin := buildClusters_not_assigned sim threshold sorted rest _ a haid c hc
            simpa using hnotin
          rw [htail, hpred]
          simp
        · have hpred : decide
              (a ∈ (growCluster sim threshold ⟨[e], 1⟩ (e.id :: assigned) sorted).1.articles) =
              false := by
            rw [h1]
            simp only [decide_eq_false_iff_not]
            intro hcontra
            rcases List.mem_append.mp hcontra with h' | h'
            · exact hae (by simpa using h')
            · exact hain h'
          have hid' : a.id ∉
              (growCluster sim threshold ⟨[e], 1⟩ (e.id :: assigned) sorted).2 := by
            rw [h3]
            intro hcontra
            rcases List.mem_append.mp hcontra with h' | h'
            · rw [List.mem_reverse] at h'
              obtain ⟨b, hb, hbid⟩ := List.mem_map.mp h'
              have hb_sorted : b ∈ sorted := h4.subset hb
              have hba : b = a := hinj hb_sorted ha_sorted hbid
              subst hba
              exact hain hb
            · rcases List.mem_cons.mp h' with h'' | h''
              · exact hae (hinj ha_sorted he_mem h'')
              · exact hid h''
          rw [hpred]
          simp only [Bool.false_eq_true, if_false, Nat.add_zero]
          exact ih _ a hrest_sub ha_rest hid'

/-- Every produced cluster's member list is a subsequence of the sorted
batch, given that all articles before the current outer position are
already assigned. -/
lemma buildClusters_sublist (sim : Article → Article → Option ℝ) (threshold : ℝ)
    (sorted : List Article) :
    ∀ (outer : List Article) (assigned : List String) (pre : List Article),
      sorted = pre ++ outer →
      (∀ b ∈ pre, b.id ∈ assigned) →
      ∀ c ∈ buildClusters sim threshold sorted outer assigned,
        c.articles.Sublist sorted := by
  intro outer
  induction outer with
  | nil =>
    intro assigned pre _ _ c hc
    simp [buildClusters] at hc
  | cons e rest ih =>
    intro assigned pre hsp hpre c hc
    by_cases he : e.id ∈ assigned
    · rw [buildClusters_cons_mem sim threshold sorted rest he] at hc
      refine ih assigned (pre ++ [e]) (by rw [hsp]; simp) ?_ c hc
      intro b hb
      rcases List.mem_append.mp hb with hb | hb
      · exact hpre b hb
      · have hbe : b = e := by simpa using hb
        subst hbe
        exact he
    · obtain ⟨adds, h1, h2, h3, h4, h5, h6⟩ :=
        growCluster_spec sim threshold sorted ⟨[e], 1⟩ (e.id :: assigned)
      rw [buildClusters_cons_new sim threshold sorted rest he] at hc
      rcases List.mem_cons.mp hc with rfl | hc
      · rw [h1]
        have hdisj : ∀ x ∈ adds.map Prod.fst, x ∉ pre := by
          intro x hx hxpre
          exact (h5 x hx) (List.mem_cons_of_mem _ (hpre x hxpre))
        have hne : ∀ x ∈ adds.map Prod.fst, x ≠ e := by
          intro x hx hxe
          exact (h5 x hx) (by rw [hxe]; exact List.mem_cons_self _ _)
        have hsub1 : (adds.map Prod.fst).Sublist (e :: rest) :=
          sublist_append_of_disjoint_left (by rw [← hsp]; exact h4) hdisj
        have hsub2 : (adds.map Prod.fst).Sublist rest := by
          refine @sublist_append_of_disjoint_left Article (adds.map Prod.fst) [e] rest
            (by simpa using hsub1) ?_
          intro x hx
          simpa using hne x hx
        have hfinal : (e :: adds.map Prod.fst).Sublist (e :: rest) := hsub2.cons₂ e
        refine hfinal.trans ?_
        rw [hsp]
        exact List.sublist_append_right pre (e :: rest)
      · refine ih _ (pre ++ [e]) (by rw [hsp]; simp) ?_ c hc
        intro b hb
        rw [h3]
        rcases List.mem_append.mp hb with hb | hb
        · exact List.mem_append_right _ (List.mem_cons_of_mem _ (hpre b hb))
        · have hbe : b = e := by simpa using hb
          subst hbe
          exact List.mem_append_right _ (List.mem_cons_self _ _)

/-- Every produced cluster decomposes as a seed and an admission chain from
that seed, with score equal to the chain's running minimum started at 1. -/
lemma buildClusters_chain (sim : Article → Article → Option ℝ) (threshold : ℝ)
    (sorted : List Article) :
    ∀ (outer : List Article) (assigned : List String),
      ∀ c ∈ buildClusters sim threshold sorted outer assigned,
        ∃ (seed : Article) (adds : List (Article × ℝ)),
          c.articles = seed :: adds.map Prod.fst ∧
          AdmissionChain sim threshold [seed] adds ∧
          c.similarity = (adds.map Prod.snd).foldl min 1 := by
  intro outer
  induction outer with
  | nil =>
    intro assigned c hc
    simp [buildClusters] at hc
  | cons e rest ih =>
    intro assigned c hc
    by_cases he : e.id ∈ assigned
    · rw [buildClusters_cons_mem sim threshold sorted rest he] at hc
      exact ih assigned c hc
    · obtain ⟨adds, h1, h2, h3, h4, h5, h6⟩ :=
        growCluster_spec sim threshold sorted ⟨[e], 1⟩ (e.id :: assigned)
      rw [buildClusters_cons_new sim threshold sorted rest he] at hc
      rcases List.mem_cons.mp hc with rfl | hc
      · exact ⟨e, adds, by simpa using h1, h6, h2⟩
      · exact ih _ c hc

/-- C1: every cluster returned by `clusterArticles` is its seed followed by
its admitted candidates in admission order; each admission's average
combined similarity against every then-current member was defined and at
least the threshold (the `AdmissionChain`); and the cluster's score is the
minimum of the initial value 1 and all admission averages (the running
`min` fold), hence never increases as members are added and never exceeds
1. -/
theorem clusterArticles_admission_invariant (articles : List Article) (threshold : ℝ)
    (c : Cluster) (hc : c ∈ clusterArticles articles threshold) :
    ∃ (seed : Article) (adds : List (Article × ℝ)),
      c.articles = seed :: adds.map Prod.fst ∧
      AdmissionChain calculateSimilarity threshold [seed] adds ∧
      (∀ p ∈ adds, threshold ≤ p.2) ∧
      c.similarity = (adds.map Prod.snd).foldl min 1 ∧
      c.similarity ≤ 1 := by
  obtain ⟨seed, adds, hart, hchain, hsim⟩ :=
    buildClusters_chain calculateSimilarity threshold (sortByRecency articles)
      (sortByRecency articles) [] c hc
  exact ⟨seed, adds, hart, hchain, AdmissionChain.snd_ge _ _ hchain, hsim,
    hsim ▸ foldl_min_le_start _ 1⟩

/-- Article of the C1 witness. -/
def artC1 : Article := ⟨"c1a", "t", "e", "u", "s", 0, none⟩

/-- Witness for C1 at a concrete run: the singleton batch forms one cluster
(just the seed, empty admission list, score 1). -/
theorem clusterArticles_admission_invariant_witness :
    ∃ (seed : Article) (adds : List (Article × ℝ)),
      (Cluster.mk [artC1] 1).articles = seed :: adds.map Prod.fst ∧
      AdmissionChain calculateSimilarity ((35 : ℝ)/100) [seed] adds ∧
      (∀ p ∈ adds, ((35 : ℝ)/100) ≤ p.2) ∧
      (Cluster.mk [artC1] 1).similarity = (adds.map Prod.snd).foldl min 1 ∧
      (Cluster.mk [artC1] 1).similarity ≤ 1 :=
  clusterArticles_admission_invariant [artC1] ((35 : ℝ)/100) ⟨[artC1], 1⟩ (by
    rw [show clusterArticles [artC1] ((35 : ℝ)/100) = [⟨[artC1], 1⟩] from rfl]
    exact List.mem_singleton.mpr rfl)

/-- First duplicate-id article of the C2 counterexample. -/
def artC2x : Article := ⟨"dup", "title one", "ex1", "u1", "s1", 0, none⟩

/-- Second duplicate-id article of the C2 counterexample. -/
def artC2y : Article := ⟨"dup", "title two", "ex2", "u2", "s2", 0, none⟩

/-- Counterexample for C2 as stated: with two distinct articles sharing one
id, the second article of the batch appears in no returned cluster at all
(the assigned-set is keyed by id, so the duplicate is skipped both as a
seed and as a candidate), so the clusters do not partition the input. -/
theorem clusterArticles_partition_counterexample :
    artC2y ∈ [artC2x, artC2y] ∧
    (clusterArticles [artC2x, artC2y] ((35 : ℝ)/100)).countP
      (fun c => decide (artC2y ∈ c.articles)) = 0 :=
  ⟨by decide, by decide⟩

/-- C2 (amended): provided the input articles carry pairwise distinct ids —
true of the database rows the job feeds in — the returned clusters
partition the input: every article appears in exactly one cluster, and
every cluster is nonempty. -/
theorem clusterArticles_partition_of_distinct_ids (articles : List Article)
    (threshold : ℝ) (hnd : (articles.map Article.id).Nodup) :
    (∀ a ∈ articles,
      (clusterArticles articles threshold).countP
        (fun c => decide (a ∈ c.articles)) = 1) ∧
    (∀ c ∈ clusterArticles articles threshold, c.articles ≠ []) := by
  have hperm : (sortByRecency articles).Perm articles := sortByRecency_perm articles
  have hnd' : ((sortByRecency articles).map Article.id).Nodup :=
    ((hperm.map Article.id).nodup_iff).mpr hnd
  constructor
  · intro a ha
    exact buildClusters_count_one calculateSimilarity threshold (sortByRecency articles)
      hnd' (sortByRecency articles) [] a (List.Sublist.refl _)
      (hperm.mem_iff.mpr ha) (List.not_mem_nil _)
  · intro c hc
    exact buildClusters_nonempty calculateSimilarity threshold (sortByRecency articles)
      (sortByRecency articles) [] c hc

/-- First article of the C2 witness (distinct ids). -/
def artC2w1 : Article := ⟨"w1", "t1", "e1", "u1", "s1", 5, none⟩

/-- Second article of the C2 witness (distinct ids). -/
def artC2w2 : Article := ⟨"w2", "t2", "e2", "u2", "s2", 3, none⟩

/-- Witness for the amended C2 at a concrete distinct-id batch. -/
theorem clusterArticles_partition_of_distinct_ids_witness :
    (clusterArticles [artC2w1, artC2w2] ((35 : ℝ)/100)).countP
      (fun c => decide (artC2w1 ∈ c.articles)) = 1 :=
  (clusterArticles_partition_of_distinct_ids [artC2w1, artC2w2] ((35 : ℝ)/100)
    (by decide)).1 artC2w1 (by decide)

/-- C10: every returned cluster lists its members in the order of the
initial recency sort (its member list is a subsequence of the sorted
batch), hence in non-increasing `published_at` order, and its first member
— the article whose title and excerpt the degraded synthesis uses — is the
cluster's most recent article. -/
theorem clusterArticles_members_recency_order (articles : List Article) (threshold : ℝ)
    (c : Cluster) (hc : c ∈ clusterArticles articles threshold) :
    c.articles.Sublist (sortByRecency articles) ∧
    c.articles.Pairwise (fun x y => y.published_at ≤ x.published_at) ∧
    ∃ (seed : Article) (others : List Article), c.articles = seed :: others ∧
      ∀ b ∈ c.articles, b.published_at ≤ seed.published_at := by
  have hsub := buildClusters_sublist calculateSimilarity threshold
    (sortByRecency articles) (sortByRecency articles) [] [] rfl
    (by intro b hb; exact absurd hb (List.not_mem_nil b)) c hc
  have hpw : c.articles.Pairwise (fun x y => y.published_at ≤ x.published_at) :=
    (sortByRecency_pairwise articles).sublist hsub
  obtain ⟨seed, adds, hart, _, _⟩ :=
    buildClusters_chain calculateSimilarity threshold (sortByRecency articles)
      (sortByRecency articles) [] c hc
  refine ⟨hsub, hpw, seed, adds.map Prod.fst, hart, ?_⟩
  intro b hb
  rw [hart] at hb
  rcases List.mem_cons.mp hb with rfl | hb
  · exact le_refl _
  · have hpw' := hart ▸ hpw
    exact (List.pairwise_cons.mp hpw').1 b hb

/-- Article of the C10 witness. -/
def artC10 : Article := ⟨"c10", "t", "e", "u", "s", 7, none⟩

/-- Witness for C10 at a concrete run: the singleton batch's one cluster is
a subsequence of the sorted batch with its seed most recent. -/
theorem clusterArticles_members_recency_order_witness :
    (Cluster.mk [artC10] 1).articles.Sublist (sortByRecency [artC10]) ∧
    (Cluster.mk [artC10] 1).articles.Pairwise
      (fun x y => y.published_at ≤ x.published_at) ∧
    ∃ (seed : Article) (others : List Article),
      (Cluster.mk [artC10] 1).articles = seed :: others ∧
      ∀ b ∈ (Cluster.mk [artC10] 1).articles, b.published_at ≤ seed.published_at :=
  clusterArticles_members_recency_order [artC10] ((35 : ℝ)/100) ⟨[artC10], 1⟩ (by
    rw [show clusterArticles [artC10] ((35 : ℝ)/100) = [⟨[artC10], 1⟩] from rfl]
    exact List.mem_singleton.mpr rfl)
